import Mathlib

/-!
Shallow embedding of the `mydevice_for_diy` Home Assistant integration's
device-state ingestion core (`src/__init__.py`), covering the UDP listener
(`_UdpServer.datagram_received`), the discovery trigger
(`_maybe_trigger_discovery`) and the listener lifecycle
(`_start_listener` / `_stop_listener`).

Python bytes are modelled as `List Nat` (each element a byte value),
Python `float` values that arise as `int / 10.0` are modelled as `ℚ`
(all values of that form are exact in binary-independent arithmetic),
and side effects (the ACK datagram, the discovery-flow creation and the
dispatcher send) are collected in an explicit effect list in the order
the code performs them.
-/

namespace MyDeviceForDIY

/-- Python `str.isspace` for the characters `str.strip()` removes
(ASCII whitespace, the C1 controls Python treats as space, and the
Unicode space characters). -/
def pyIsSpace (c : Char) : Bool :=
  c.toNat ∈ [9, 10, 11, 12, 13, 28, 29, 30, 31, 32, 133, 160, 5760,
    8192, 8193, 8194, 8195, 8196, 8197, 8198, 8199, 8200, 8201, 8202,
    8232, 8233, 8239, 8287, 12288]

/-- `str.strip()` on a list of characters: drop whitespace from both ends. -/
def pyStripList (cs : List Char) : List Char :=
  ((cs.dropWhile pyIsSpace).reverse.dropWhile pyIsSpace).reverse

/-- Python `str.strip()` with no arguments. -/
def pyStrip (s : String) : String :=
  String.mk (pyStripList s.data)

/-- Tail of a Python decimal integer literal: digits, with single
underscores allowed between digits (`int("1_0") == 10`, `int("1__0")`
and `int("1_")` raise). -/
def pyNumTail : List Char → Bool
  | [] => true
  | '_' :: c :: cs => c.isDigit && pyNumTail cs
  | c :: cs => c.isDigit && pyNumTail cs

/-- A valid (unsigned) Python decimal integer literal body. -/
def pyNumOk : List Char → Bool
  | [] => false
  | c :: cs => c.isDigit && pyNumTail cs

/-- Numeric value of a digit/underscore string (underscores skipped). -/
def pyNatVal (cs : List Char) : Nat :=
  (cs.filter (fun c => c ≠ '_')).foldl (fun a c => 10 * a + (c.toNat - '0'.toNat)) 0

/-- Python `int(s)` on an already-stripped string: optional sign then a
decimal body; `none` models the `ValueError` the code catches. -/
def pyInt? (s : String) : Option Int :=
  match s.data with
  | '-' :: cs => if pyNumOk cs then some (-(pyNatVal cs : Int)) else none
  | '+' :: cs => if pyNumOk cs then some ((pyNatVal cs : Int)) else none
  | cs => if pyNumOk cs then some ((pyNatVal cs : Int)) else none

/-- U+FFFD REPLACEMENT CHARACTER, what `errors="replace"` substitutes. -/
def replChar : Char := Char.ofNat 0xFFFD

/-- One step of UTF-8 decoding with replacement: given a lead byte and
the bytes after it, either decode one scalar value or consume one maximal
invalid subpart as a U+FFFD; returns the emitted character and the bytes
still to decode (decoding resumes at the first offending byte, per the
Unicode "maximal subpart" recommendation CPython follows). -/
def utf8Step (b : Nat) (rest : List Nat) : Char × List Nat :=
  if b < 0x80 then
    (Char.ofNat b, rest)
  else if 0xC2 ≤ b ∧ b ≤ 0xDF then
    match rest with
    | [] => (replChar, [])
    | b1 :: rest1 =>
      if 0x80 ≤ b1 ∧ b1 ≤ 0xBF then
        (Char.ofNat ((b - 0xC0) * 0x40 + (b1 - 0x80)), rest1)
      else
        (replChar, b1 :: rest1)
  else if 0xE0 ≤ b ∧ b ≤ 0xEF then
    match rest with
    | [] => (replChar, [])
    | b1 :: rest1 =>
      if (if b = 0xE0 then 0xA0 else 0x80) ≤ b1 ∧ b1 ≤ (if b = 0xED then 0x9F else 0xBF) then
        match rest1 with
        | [] => (replChar, [])
        | b2 :: rest2 =>
          if 0x80 ≤ b2 ∧ b2 ≤ 0xBF then
            (Char.ofNat ((b - 0xE0) * 0x1000 + (b1 - 0x80) * 0x40 + (b2 - 0x80)), rest2)
          else
            (replChar, b2 :: rest2)
      else
        (replChar, b1 :: rest1)
  else if 0xF0 ≤ b ∧ b ≤ 0xF4 then
    match rest with
    | [] => (replChar, [])
    | b1 :: rest1 =>
      if (if b = 0xF0 then 0x90 else 0x80) ≤ b1 ∧ b1 ≤ (if b = 0xF4 then 0x8F else 0xBF) then
        match rest1 with
        | [] => (replChar, [])
        | b2 :: rest2 =>
          if 0x80 ≤ b2 ∧ b2 ≤ 0xBF then
            match rest2 with
            | [] => (replChar, [])
            | b3 :: rest3 =>
              if 0x80 ≤ b3 ∧ b3 ≤ 0xBF then
                (Char.ofNat ((b - 0xF0) * 0x40000 + (b1 - 0x80) * 0x1000 +
                  (b2 - 0x80) * 0x40 + (b3 - 0x80)), rest3)
              else
                (replChar, b3 :: rest3)
          else
            (replChar, b2 :: rest2)
      else
        (replChar, b1 :: rest1)
  else
    (replChar, rest)

/-- `utf8Step` never grows the list of bytes still to decode. -/
theorem utf8Step_len (b : Nat) (rest : List Nat) :
    (utf8Step b rest).2.length ≤ rest.length := by
  unfold utf8Step
  repeat' split
  all_goals simp_all [List.length]
  all_goals omega

/-- Driver for `utf8Step`; the fuel argument only bounds recursion depth
and never runs out when it starts at the byte count, since every step
consumes at least the lead byte (see `utf8Step_len`). -/
def utf8DecodeGo : Nat → List Nat → List Char
  | _, [] => []
  | 0, _ :: _ => []
  | fuel + 1, b :: rest =>
    (utf8Step b rest).1 :: utf8DecodeGo fuel (utf8Step b rest).2

/-- `bytes.decode("utf-8", errors="replace")`: total UTF-8 decoding where
every maximal invalid subsequence yields a U+FFFD. -/
def utf8DecodeReplace (l : List Nat) : List Char :=
  utf8DecodeGo l.length l

/-- `s.encode("utf-8")` restricted to ASCII strings, for concrete test
datagrams (every payload in the claims is ASCII). -/
def asciiBytes (s : String) : List Nat :=
  s.data.map Char.toNat

/-- Split a character list at every occurrence of `sep` (the separator is
dropped; empty pieces are kept, and the empty input gives one empty
piece). -/
def splitOnChar (sep : Char) : List Char → List (List Char)
  | [] => [[]]
  | c :: cs =>
    if c = sep then [] :: splitOnChar sep cs
    else
      match splitOnChar sep cs with
      | [] => [[c]]
      | h :: t => (c :: h) :: t

/-- Python `text.split(";")`: split on every semicolon, keeping empty
fields (so an empty text gives one empty field, never zero fields). -/
def pySplitSemi (s : String) : List String :=
  (splitOnChar ';' s.data).map String.mk

/-- `DeviceState` of `src/__init__.py`: latest known state for one
thermometer, with the source's field names and defaults. -/
structure DeviceState where
  device_id : String
  last_update_utc : Option Int := none
  temperature_c : Option ℚ := none
  humidity_percent : Option ℚ := none
  last_seen_utc : Option Int := none
  deriving DecidableEq, Repr

/-- The `hass.data[DOMAIN]["devices"]` dict, as a lookup function. -/
def Store : Type := String → Option DeviceState

/-- The dict before any datagram arrived. -/
def emptyStore : Store := fun _ => none

/-- `store[device_id] = st` (Python dict assignment). -/
def storeInsert (store : Store) (d : String) (st : DeviceState) : Store :=
  fun d' => if d' = d then some st else store d'

/-- One observable side effect of `datagram_received` /
`_maybe_trigger_discovery`, in the order the code performs them:
the ACK datagram sent back to the sender, the creation of the
integration-discovery flow, and the `SIGNAL_DEVICE_UPDATED`
dispatcher send. -/
inductive Effect where
  | ack (payload : String)
  | discovered (device_id : String)
  | deviceUpdated (device_id : String)
  deriving DecidableEq, Repr

/-- `_maybe_trigger_discovery(hass, device_id)`: scan the config entries
(modelled by `regs`, the device-ids of existing `ENTRY_TYPE_DEVICE`
entries) and start a discovery flow only when no device entry with this
id exists. -/
def maybe_trigger_discovery (regs : List String) (device_id : String) : List Effect :=
  if device_id ∈ regs then [] else [Effect.discovered device_id]

/-- The decoded content of one accepted datagram, exactly the locals the
code has computed when it reaches the store update (`meas_ts` is always
set, `temp_c` / `hum_p` stay `None` when absent or unparsable). -/
structure Reading where
  device_id : String
  meas_ts : Int
  temp_c : Option ℚ := none
  hum_p : Option ℚ := none
  deriving DecidableEq, Repr

/-- Outcome of the parse section of `datagram_received` (lines 79-120):
`malformed` is the early return for a short datagram or an empty
device-id (logged "Ignoring short datagram" / "Ignoring datagram with
empty device-id"), `ignorable` is the early return for an unsupported
record type (logged "Ignoring record-type"), `ok` reaches the store
update. -/
inductive DecodeResult where
  | malformed
  | ignorable
  | ok (r : Reading)
  deriving DecidableEq, Repr

/-- The parse section of `datagram_received` on the (already stripped)
payload text: split on `";"`, require at least 3 fields and a non-empty
device id, require record type in `("11", "ht", "HT")`, then read the
timestamp (negative = relative age, unparsable/empty = now) and the
`value * 10` temperature/humidity fields; the source's `int(...) / 10.0`
is modelled exactly as the rational `mkRat v 10` (every such quotient is
exactly representable). -/
def decodeText (now : Int) (text : String) : DecodeResult :=
  let parts := pySplitSemi text
  if parts.length < 3 then .malformed
  else
    let raw_ts := pyStrip (parts.getD 0 "")
    let raw_type := pyStrip (parts.getD 1 "")
    let device_id := pyStrip (parts.getD 2 "")
    if device_id = "" then .malformed
    else if raw_type ∉ (["11", "ht", "HT"] : List String) then .ignorable
    else
      let meas_ts : Int :=
        if raw_ts ≠ "" then
          match pyInt? raw_ts with
          | some v => if v < 0 then now + v else v
          | none => now
        else now
      let temp_c : Option ℚ :=
        if parts.length ≥ 4 ∧ pyStrip (parts.getD 3 "") ≠ "" then
          (pyInt? (pyStrip (parts.getD 3 ""))).map (fun v => mkRat v 10)
        else none
      let hum_p : Option ℚ :=
        if parts.length ≥ 5 ∧ pyStrip (parts.getD 4 "") ≠ "" then
          (pyInt? (pyStrip (parts.getD 4 ""))).map (fun v => mkRat v 10)
        else none
      .ok { device_id := device_id, meas_ts := meas_ts, temp_c := temp_c, hum_p := hum_p }

/-- The store-update tail of `datagram_received` (lines 122-137): look up
or create the `DeviceState` (triggering discovery on creation), set
`last_seen_utc` / `last_update_utc`, overwrite only the fields present in
the message, and finally dispatch `SIGNAL_DEVICE_UPDATED`. -/
def handleReading (now : Int) (regs : List String) (store : Store) (r : Reading) :
    Store × List Effect :=
  let found := store r.device_id
  let st := found.getD { device_id := r.device_id }
  let discEffs := if found.isSome then [] else maybe_trigger_discovery regs r.device_id
  let st' : DeviceState :=
    { st with
      last_seen_utc := some now
      last_update_utc := some r.meas_ts
      temperature_c := match r.temp_c with | some t => some t | none => st.temperature_c
      humidity_percent := match r.hum_p with | some h => some h | none => st.humidity_percent }
  (storeInsert store r.device_id st', discEffs ++ [Effect.deviceUpdated r.device_id])

/-- The payload text as the code computes it:
`data.decode("utf-8", errors="replace").strip()`. -/
def textOfDatagram (data : List Nat) : String :=
  pyStrip (String.mk (utf8DecodeReplace data))

/-- `_UdpServer.datagram_received(data, addr)`: decode the bytes with
replacement, ACK immediately with the current timestamp (before any
parsing), then parse and, on an accepted reading, update the store.
Returns the new store and the effects in program order. -/
def datagram_received (now : Int) (regs : List String) (store : Store) (data : List Nat) :
    Store × List Effect :=
  let text := textOfDatagram data
  let ackEff := Effect.ack (toString now ++ ";1")
  match decodeText now text with
  | .malformed => (store, [ackEff])
  | .ignorable => (store, [ackEff])
  | .ok r =>
    let (store', effs) := handleReading now regs store r
    (store', ackEff :: effs)

/-- One inbound datagram in a process-lifetime trace: the receive time,
the registered device-ids at that moment, and the raw bytes. -/
structure Msg where
  now : Int
  regs : List String
  data : List Nat
  deriving DecidableEq, Repr

/-- Process a sequence of datagrams through one process lifetime,
threading the store and concatenating the effects. -/
def processTrace (store : Store) : List Msg → Store × List Effect
  | [] => (store, [])
  | m :: ms =>
    let (s1, e1) := datagram_received m.now m.regs store m.data
    let (s2, e2) := processTrace s1 ms
    (s2, e1 ++ e2)

/-- Does this datagram pass decoding with device id `d` (and hence reach
the store update for `d`)? -/
def acceptsFor (d : String) (m : Msg) : Bool :=
  match decodeText m.now (textOfDatagram m.data) with
  | .ok r => r.device_id = d
  | _ => false

/-- Number of discovery triggers for device `d` in an effect list. -/
def discCount (d : String) (effs : List Effect) : Nat :=
  effs.countP (fun e => e = Effect.discovered d)

/-- Is the effect an ACK datagram? -/
def isAck : Effect → Bool
  | .ack _ => true
  | _ => false

/-- Listener bookkeeping in `hass.data[DOMAIN]`: the `"server"` slot
(abstracted to a transport id) and the `"port"` slot. -/
structure LState where
  server : Option Nat
  port : Option Int
  deriving DecidableEq, Repr

/-- Observable listener lifecycle effects: closing the old transport and
binding a datagram endpoint to a port. -/
inductive LEffect where
  | closed (transport : Nat)
  | bound (transport : Nat) (port : Int)
  deriving DecidableEq, Repr

/-- `_stop_listener(hass)`: close the transport and clear both slots, a
no-op when no server is running. -/
def stop_listener (s : LState) : LState × List LEffect :=
  match s.server with
  | none => (s, [])
  | some t => ({ server := none, port := none }, [LEffect.closed t])

/-- `_start_listener(hass, port)`: return immediately when a server is
running on the same port, otherwise stop any existing server and bind a
fresh endpoint (`fresh` models the newly created transport). -/
def start_listener (s : LState) (port : Int) (fresh : Nat) : LState × List LEffect :=
  if s.server ≠ none ∧ s.port = some port then (s, [])
  else
    let (_, effs) := stop_listener s
    ({ server := some fresh, port := some port }, effs ++ [LEffect.bound fresh port])

/-! Helper lemmas shared by the claim theorems. -/

theorem datagram_received_eq (now : Int) (regs : List String) (store : Store)
    (data : List Nat) :
    datagram_received now regs store data =
      match decodeText now (textOfDatagram data) with
      | .malformed => (store, [Effect.ack (toString now ++ ";1")])
      | .ignorable => (store, [Effect.ack (toString now ++ ";1")])
      | .ok r => ((handleReading now regs store r).1,
          Effect.ack (toString now ++ ";1") :: (handleReading now regs store r).2) := by
  rcases h : decodeText now (textOfDatagram data) with _ | _ | r <;>
    simp only [datagram_received, h]

theorem discCount_nil (d : String) : discCount d [] = 0 := rfl

theorem discCount_cons (d : String) (e : Effect) (l : List Effect) :
    discCount d (e :: l) = discCount d l + (if e = Effect.discovered d then 1 else 0) := by
  simp [discCount, List.countP_cons]

theorem discCount_append (d : String) (l1 l2 : List Effect) :
    discCount d (l1 ++ l2) = discCount d l1 + discCount d l2 := by
  simp [discCount, List.countP_append]

theorem step_not_accepted (m : Msg) (store : Store) (d : String)
    (h : acceptsFor d m = false) :
    (datagram_received m.now m.regs store m.data).1 d = store d ∧
    discCount d (datagram_received m.now m.regs store m.data).2 = 0 := by
  rw [datagram_received_eq]
  rcases hdec : decodeText m.now (textOfDatagram m.data) with _ | _ | r
  · exact ⟨rfl, by simp [discCount_cons, discCount_nil]⟩
  · exact ⟨rfl, by simp [discCount_cons, discCount_nil]⟩
  · have hne : r.device_id ≠ d := by
      simpa [acceptsFor, hdec] using h
    constructor
    · simp [handleReading, storeInsert, Ne.symm hne]
    · simp only [handleReading, maybe_trigger_discovery]
      by_cases hst : (store r.device_id).isSome <;>
        by_cases hmem : r.device_id ∈ m.regs <;>
          simp [hst, hmem, discCount_cons, discCount_append, discCount_nil, hne]

theorem step_accepted (m : Msg) (store : Store) (d : String)
    (h : acceptsFor d m = true) :
    ((datagram_received m.now m.regs store m.data).1 d).isSome ∧
    discCount d (datagram_received m.now m.regs store m.data).2 =
      if (store d).isSome then 0 else if d ∈ m.regs then 0 else 1 := by
  rw [datagram_received_eq]
  rcases hdec : decodeText m.now (textOfDatagram m.data) with _ | _ | r
  · simp [acceptsFor, hdec] at h
  · simp [acceptsFor, hdec] at h
  · have hid : r.device_id = d := by
      simpa [acceptsFor, hdec] using h
    subst hid
    constructor
    · simp [handleReading, storeInsert]
    · simp only [handleReading, maybe_trigger_discovery]
      by_cases hst : (store r.device_id).isSome <;>
        by_cases hmem : r.device_id ∈ m.regs <;>
          simp [hst, hmem, discCount_cons, discCount_append, discCount_nil]

theorem processTrace_cons (store : Store) (m : Msg) (ms : List Msg) :
    processTrace store (m :: ms) =
      ((processTrace (datagram_received m.now m.regs store m.data).1 ms).1,
       (datagram_received m.now m.regs store m.data).2 ++
         (processTrace (datagram_received m.now m.regs store m.data).1 ms).2) := rfl

theorem trace_disc (d : String) (tr : List Msg) : ∀ (store : Store),
    ((store d).isSome → discCount d (processTrace store tr).2 = 0) ∧
    (store d = none →
      discCount d (processTrace store tr).2 =
        match tr.find? (acceptsFor d) with
        | none => 0
        | some m => if d ∈ m.regs then 0 else 1) := by
  induction tr with
  | nil =>
    intro store
    exact ⟨fun _ => rfl, fun _ => rfl⟩
  | cons m ms ih =>
    intro store
    rw [processTrace_cons]
    constructor
    · intro hs
      simp only [discCount_append]
      rcases hacc : acceptsFor d m with _ | _
      · obtain ⟨h1, h2⟩ := step_not_accepted m store d hacc
        have hs' : ((datagram_received m.now m.regs store m.data).1 d).isSome := by
          rw [h1]; exact hs
        rw [h2, (ih _).1 hs']
      · obtain ⟨h1, h2⟩ := step_accepted m store d hacc
        rw [h2, if_pos hs, (ih _).1 h1]
    · intro hn
      simp only [discCount_append]
      rcases hacc : acceptsFor d m with _ | _
      · obtain ⟨h1, h2⟩ := step_not_accepted m store d hacc
        rw [List.find?_cons_of_neg _ (by simp [hacc]), h2,
          (ih _).2 (h1.trans hn), Nat.zero_add]
      · obtain ⟨h1, h2⟩ := step_accepted m store d hacc
        rw [List.find?_cons_of_pos _ hacc, h2, if_neg (by simp [hn]),
          (ih _).1 h1, Nat.add_zero]


/-! Claim theorems. -/

/-- C1 counterexample: the message "-;ht;dev1;213;455" is accepted for
device id "dev1", "dev1" has no device config entry (the registered set
is empty), and the store update nevertheless publishes
DeviceUpdated("dev1") — so an accepted message for a non-registered
device does publish DeviceUpdated, contrary to the claim. -/
theorem C1_counterexample :
    acceptsFor "dev1" ⟨0, [], asciiBytes "-;ht;dev1;213;455"⟩ = true ∧
    ¬ ("dev1" ∈ ([] : List String)) ∧
    Effect.deviceUpdated "dev1" ∈
      (datagram_received 0 [] emptyStore (asciiBytes "-;ht;dev1;213;455")).2 := by
  refine ⟨by decide, by decide, by decide⟩

/-- C1 (amended): for every accepted message (one whose payload decodes
to an ok Reading and so reaches the store update), the core publishes
DeviceUpdated for its device id — unconditionally, whatever the
registered-device set is: the effect list is the ACK, then the possible
discovery trigger, then the DeviceUpdated dispatch. -/
theorem C1_device_updated_always_published (now : Int) (regs : List String)
    (store : Store) (data : List Nat) (r : Reading)
    (h : decodeText now (textOfDatagram data) = DecodeResult.ok r) :
    ∃ pre, (datagram_received now regs store data).2 =
      Effect.ack (toString now ++ ";1") :: pre ++ [Effect.deviceUpdated r.device_id] := by
  rw [datagram_received_eq, h]
  exact ⟨_, rfl⟩

/-- C1 witness: the amended theorem applied to the concrete accepted
message "-;ht;dev1;213;455" with an empty registered set. -/
theorem C1_witness :
    ∃ pre, (datagram_received 0 [] emptyStore (asciiBytes "-;ht;dev1;213;455")).2 =
      Effect.ack (toString (0 : Int) ++ ";1") :: pre ++ [Effect.deviceUpdated "dev1"] :=
  C1_device_updated_always_published 0 [] emptyStore (asciiBytes "-;ht;dev1;213;455")
    { device_id := "dev1", meas_ts := 0, temp_c := some (mkRat 213 10),
      hum_p := some (mkRat 455 10) } (by decide)

/-- C2: over any process-lifetime sequence of datagrams (the store starts
empty), the discovery trigger for a device id fires at most once; it
never fires when no datagram is ever accepted for that id; and when some
datagram is accepted for the id, the count is exactly zero or one
according to whether the id was registered when its first accepted
message arrived. -/
theorem C2_discovery_fires_at_most_once (trace : List Msg) (d : String) :
    discCount d (processTrace emptyStore trace).2 ≤ 1 ∧
    (trace.find? (acceptsFor d) = none →
      discCount d (processTrace emptyStore trace).2 = 0) ∧
    (∀ m, trace.find? (acceptsFor d) = some m →
      discCount d (processTrace emptyStore trace).2 = if d ∈ m.regs then 0 else 1) := by
  have h := (trace_disc d trace emptyStore).2 rfl
  refine ⟨?_, ?_, ?_⟩
  · rw [h]
    rcases trace.find? (acceptsFor d) with _ | m
    · exact Nat.zero_le 1
    · dsimp only
      split <;> omega
  · intro hf
    rw [hf] at h
    simpa using h
  · intro m hf
    rw [hf] at h
    simpa using h

/-- C2 witness: two consecutive messages for the unseen, unregistered id
"dev1" trigger discovery exactly once. -/
theorem C2_witness :
    discCount "dev1" (processTrace emptyStore
      [⟨0, [], asciiBytes "1;ht;dev1;5;6"⟩, ⟨1, [], asciiBytes "2;ht;dev1;7;8"⟩]).2 = 1 := by
  have h := (C2_discovery_fires_at_most_once
    [⟨0, [], asciiBytes "1;ht;dev1;5;6"⟩, ⟨1, [], asciiBytes "2;ht;dev1;7;8"⟩] "dev1").2.2
    ⟨0, [], asciiBytes "1;ht;dev1;5;6"⟩ (by decide)
  simpa using h

/-- C8: for every inbound datagram — whatever its bytes decode or parse
to — the effect list starts with the ACK reply carrying the current
server UTC time and the fixed success marker, and contains exactly one
ACK: the acknowledgement precedes all parse-dependent effects and does
not depend on parse success. -/
theorem C8_ack_first_and_exactly_once (now : Int) (regs : List String)
    (store : Store) (data : List Nat) :
    (datagram_received now regs store data).2.head? =
      some (Effect.ack (toString now ++ ";1")) ∧
    (datagram_received now regs store data).2.countP isAck = 1 := by
  rw [datagram_received_eq]
  rcases hdec : decodeText now (textOfDatagram data) with _ | _ | r
  · exact ⟨rfl, by simp [isAck, List.countP_cons]⟩
  · exact ⟨rfl, by simp [isAck, List.countP_cons]⟩
  · refine ⟨rfl, ?_⟩
    simp only [handleReading]
    by_cases hst : (store r.device_id).isSome <;>
      by_cases hmem : r.device_id ∈ regs <;>
        simp [hst, hmem, maybe_trigger_discovery, isAck,
          List.countP_cons, List.countP_append]

/-- C3: when a message is accepted for a device the store already knows,
a Reading with no temperature leaves the stored temperature_c unchanged
and a Reading with no humidity leaves the stored humidity_percent
unchanged: absent fields are never reset, only present ones overwrite. -/
theorem C3_absent_fields_unchanged (now : Int) (regs : List String) (store : Store)
    (data : List Nat) (r : Reading) (st : DeviceState)
    (hdec : decodeText now (textOfDatagram data) = DecodeResult.ok r)
    (hst : store r.device_id = some st) :
    ∃ st', (datagram_received now regs store data).1 r.device_id = some st' ∧
      (r.temp_c = none → st'.temperature_c = st.temperature_c) ∧
      (r.hum_p = none → st'.humidity_percent = st.humidity_percent) := by
  rw [datagram_received_eq, hdec]
  refine ⟨{ st with
      last_seen_utc := some now
      last_update_utc := some r.meas_ts
      temperature_c := match r.temp_c with | some t => some t | none => st.temperature_c
      humidity_percent := match r.hum_p with | some h => some h | none => st.humidity_percent },
    ?_, ?_, ?_⟩
  · simp [handleReading, storeInsert, hst]
  · intro h
    rw [h]
  · intro h
    rw [h]

/-- C3 witness: the device "dev1" is stored with temperature 1 and
humidity 2; the accepted message ";ht;dev1" carries neither field, and
both stored values survive. -/
theorem C3_witness :
    ∃ st', (datagram_received 100 [] (storeInsert emptyStore "dev1"
        { device_id := "dev1", temperature_c := some 1, humidity_percent := some 2 })
        (asciiBytes ";ht;dev1")).1 "dev1" = some st' ∧
      st'.temperature_c = some 1 ∧ st'.humidity_percent = some 2 := by
  obtain ⟨st', h1, h2, h3⟩ := C3_absent_fields_unchanged 100 []
    (storeInsert emptyStore "dev1"
      { device_id := "dev1", temperature_c := some 1, humidity_percent := some 2 })
    (asciiBytes ";ht;dev1")
    { device_id := "dev1", meas_ts := 100 }
    { device_id := "dev1", temperature_c := some 1, humidity_percent := some 2 }
    (by decide) (by simp [storeInsert])
  exact ⟨st', h1, by rw [h2 rfl], by rw [h3 rfl]⟩

/-- C4 counterexample: "Ht" is case-insensitively equal to the accepted
code "ht", yet the message "1;Ht;dev1;213;455" is ignored (and the store
is untouched): the record-type gate is not case-insensitive. -/
theorem C4_counterexample :
    "Ht".data.map Char.toLower = "ht".data ∧
    decodeText 0 "1;Ht;dev1;213;455" = DecodeResult.ignorable ∧
    (datagram_received 0 [] emptyStore (asciiBytes "1;Ht;dev1;213;455")).1 = emptyStore := by
  exact ⟨by decide, by decide, rfl⟩

/-- C4 (amended): the record-type gate is an exact string match against
the three literal codes "11", "ht" and "HT": a message whose (stripped)
record_type is one of those three strings is processed, every other
record_type — including mixed-case variants such as "Ht" or "hT" —
yields the ignorable outcome, and an ignorable message leaves the store
unchanged (only the ACK is sent). -/
theorem C4_record_type_exact_match (now : Int) (text : String)
    (hlen : ¬ (pySplitSemi text).length < 3)
    (hid : pyStrip ((pySplitSemi text).getD 2 "") ≠ "") :
    (pyStrip ((pySplitSemi text).getD 1 "") ∈ (["11", "ht", "HT"] : List String) →
      ∃ r, decodeText now text = DecodeResult.ok r ∧
        r.device_id = pyStrip ((pySplitSemi text).getD 2 "")) ∧
    (pyStrip ((pySplitSemi text).getD 1 "") ∉ (["11", "ht", "HT"] : List String) →
      decodeText now text = DecodeResult.ignorable) ∧
    (∀ (regs : List String) (store : Store) (data : List Nat),
      decodeText now (textOfDatagram data) = DecodeResult.ignorable →
      datagram_received now regs store data =
        (store, [Effect.ack (toString now ++ ";1")])) := by
  refine ⟨?_, ?_, ?_⟩
  · intro hmem
    refine ⟨⟨pyStrip ((pySplitSemi text).getD 2 ""),
        (if pyStrip ((pySplitSemi text).getD 0 "") ≠ "" then
          match pyInt? (pyStrip ((pySplitSemi text).getD 0 "")) with
          | some v => if v < 0 then now + v else v
          | none => now
        else now),
        (if (pySplitSemi text).length ≥ 4 ∧ pyStrip ((pySplitSemi text).getD 3 "") ≠ "" then
          (pyInt? (pyStrip ((pySplitSemi text).getD 3 ""))).map (fun v => mkRat v 10)
        else none),
        (if (pySplitSemi text).length ≥ 5 ∧ pyStrip ((pySplitSemi text).getD 4 "") ≠ "" then
          (pyInt? (pyStrip ((pySplitSemi text).getD 4 ""))).map (fun v => mkRat v 10)
        else none)⟩, ?_, rfl⟩
    simp only [decodeText]
    rw [if_neg hlen, if_neg hid, if_neg (not_not_intro hmem)]
  · intro hmem
    simp only [decodeText]
    rw [if_neg hlen, if_neg hid, if_pos hmem]
  · intro regs store data h
    rw [datagram_received_eq, h]

/-- C4 witness: the amended theorem at the unsupported type "99"
(ignorable) and at the accepted literal "HT" (processed). -/
theorem C4_witness :
    decodeText 5 "1;99;dev1" = DecodeResult.ignorable ∧
    (∃ r, decodeText 5 "1;HT;dev1" = DecodeResult.ok r ∧ r.device_id = "dev1") := by
  constructor
  · exact (C4_record_type_exact_match 5 "1;99;dev1" (by decide) (by decide)).2.1 (by decide)
  · obtain ⟨r, h1, h2⟩ :=
      (C4_record_type_exact_match 5 "1;HT;dev1" (by decide) (by decide)).1 (by decide)
    exact ⟨r, h1, h2.trans (by decide)⟩

/-- C5: the decode step returns the malformed outcome for a short
message or an empty device id, the distinct ignorable outcome for a
well-formed message with an unsupported record type, and the two
outcomes are different values — a caller can tell the two cases apart
from the result alone (the code logs them on distinct paths). -/
theorem C5_decode_outcomes_distinguishable (now : Int) (text : String) :
    ((pySplitSemi text).length < 3 → decodeText now text = DecodeResult.malformed) ∧
    (¬ (pySplitSemi text).length < 3 → pyStrip ((pySplitSemi text).getD 2 "") = "" →
      decodeText now text = DecodeResult.malformed) ∧
    (¬ (pySplitSemi text).length < 3 → pyStrip ((pySplitSemi text).getD 2 "") ≠ "" →
      pyStrip ((pySplitSemi text).getD 1 "") ∉ (["11", "ht", "HT"] : List String) →
      decodeText now text = DecodeResult.ignorable) ∧
    DecodeResult.malformed ≠ DecodeResult.ignorable := by
  refine ⟨?_, ?_, ?_, by decide⟩
  · intro h
    simp only [decodeText]
    rw [if_pos h]
  · intro h1 h2
    simp only [decodeText]
    rw [if_neg h1, if_pos h2]
  · intro h1 h2 h3
    simp only [decodeText]
    rw [if_neg h1, if_neg h2, if_pos h3]

/-- C5 witness: a one-field message is malformed, an unsupported-type
message is ignorable. -/
theorem C5_witness :
    decodeText 7 "x" = DecodeResult.malformed ∧
    decodeText 7 "2;zz;dev2" = DecodeResult.ignorable := by
  constructor
  · exact (C5_decode_outcomes_distinguishable 7 "x").1 (by decide)
  · exact (C5_decode_outcomes_distinguishable 7 "2;zz;dev2").2.2.1
      (by decide) (by decide) (by decide)

/-- C6: on a well-formed accepted message whose timestamp field parses
to v, the decoded measurement time is now + v when v is negative (a
relative age before now) and v itself when v is non-negative (absolute
UTC seconds). -/
theorem C6_negative_timestamp_is_relative (now : Int) (text : String) (v : Int)
    (hlen : ¬ (pySplitSemi text).length < 3)
    (hid : pyStrip ((pySplitSemi text).getD 2 "") ≠ "")
    (htype : pyStrip ((pySplitSemi text).getD 1 "") ∈ (["11", "ht", "HT"] : List String))
    (hts : pyInt? (pyStrip ((pySplitSemi text).getD 0 "")) = some v) :
    ∃ r, decodeText now text = DecodeResult.ok r ∧
      (v < 0 → r.meas_ts = now + v) ∧ (0 ≤ v → r.meas_ts = v) := by
  have hne : pyStrip ((pySplitSemi text).getD 0 "") ≠ "" := by
    intro h
    rw [h] at hts
    exact Option.noConfusion hts
  simp only [decodeText]
  rw [if_neg hlen, if_neg hid, if_neg (not_not_intro htype), if_pos hne, hts]
  refine ⟨_, rfl, fun hv => ?_, fun hv => ?_⟩
  · show (if v < 0 then now + v else v) = now + v
    rw [if_pos hv]
  · show (if v < 0 then now + v else v) = v
    rw [if_neg (not_lt.mpr hv)]

/-- C6 witness: "-40;ht;dev1" received at time 100 stores measurement
time 60 = 100 + (-40). -/
theorem C6_witness :
    ∃ r, decodeText 100 "-40;ht;dev1" = DecodeResult.ok r ∧ r.meas_ts = 60 := by
  obtain ⟨r, h1, h2, -⟩ := C6_negative_timestamp_is_relative 100 "-40;ht;dev1" (-40)
    (by decide) (by decide) (by decide) (by decide)
  refine ⟨r, h1, ?_⟩
  rw [h2 (by decide)]
  decide

/-- C7: decoding "-;ht;dev1;213;455" (dash timestamp, which fails int()
and so defaults to now) yields an accepted Reading for "dev1" with
measurement time now, temperature 21.3 and humidity 45.5. -/
theorem C7_dash_timestamp_message (now : Int) :
    decodeText now "-;ht;dev1;213;455" = DecodeResult.ok
      { device_id := "dev1", meas_ts := now, temp_c := some (21.3 : ℚ),
        hum_p := some (45.5 : ℚ) } := by
  have ht : (21.3 : ℚ) = mkRat 213 10 := by
    rw [Rat.mkRat_eq_div]
    norm_num
  have hh : (45.5 : ℚ) = mkRat 455 10 := by
    rw [Rat.mkRat_eq_div]
    norm_num
  rw [ht, hh]
  rfl

/-- C9: starting the listener while one is running on the same port is a
no-op (state unchanged, nothing closed or bound); starting on a different
port closes the running transport first and only then binds the fresh
one to the new port. -/
theorem C9_start_listener_idempotent (s : LState) (p p' : Int) (t fresh : Nat)
    (hs : s.server = some t) (hp : s.port = some p) :
    start_listener s p fresh = (s, []) ∧
    (p' ≠ p → start_listener s p' fresh =
      ({ server := some fresh, port := some p' },
        [LEffect.closed t, LEffect.bound fresh p'])) := by
  constructor
  · unfold start_listener
    rw [if_pos ⟨by simp [hs], hp⟩]
  · intro hne
    have hcond : ¬ (s.server ≠ none ∧ s.port = some p') := by
      rintro ⟨-, h2⟩
      rw [hp] at h2
      exact hne (Option.some.inj h2).symm
    unfold start_listener
    rw [if_neg hcond]
    simp [stop_listener, hs]

/-- C9 witness: with transport 1 bound to port 5, starting on port 5
changes nothing; starting on port 6 closes transport 1 then binds the
fresh transport 2. -/
theorem C9_witness :
    start_listener ⟨some 1, some 5⟩ 5 2 = (⟨some 1, some 5⟩, []) ∧
    start_listener ⟨some 1, some 5⟩ 6 2 =
      (⟨some 2, some 6⟩, [LEffect.closed 1, LEffect.bound 2 6]) := by
  have h := C9_start_listener_idempotent ⟨some 1, some 5⟩ 5 6 1 2 rfl rfl
  exact ⟨h.1, h.2 (by decide)⟩

/-- C10: decoding the datagram bytes to text is total — no byte sequence
is ever rejected (every datagram is still processed at least to the ACK),
a lone invalid byte becomes the replacement character U+FFFD, and a
datagram whose device-id field contains an invalid byte is accepted and
stored under a key containing U+FFFD. -/
theorem C10_utf8_decode_total_with_replacement :
    (∀ (data : List Nat) (now : Int) (regs : List String) (store : Store),
      (datagram_received now regs store data).2 ≠ []) ∧
    utf8DecodeReplace [0xFF] = [replChar] ∧
    replChar ∈ ("de".data ++ [replChar] ++ "v1".data) ∧
    ((datagram_received 0 [] emptyStore
        (asciiBytes "1;ht;de" ++ [0xFF] ++ asciiBytes "v1;213;455")).1
      (String.mk ("de".data ++ [replChar] ++ "v1".data))).isSome := by
  refine ⟨?_, by decide, by decide, by decide⟩
  intro data now regs store
  rw [datagram_received_eq]
  rcases decodeText now (textOfDatagram data) with _ | _ | r <;> simp

end MyDeviceForDIY
